import Mathlib

/-!
Verification of the `mvc` package (`src/mvc/mvc.go`): the MVC `Application`
facade over a dependency store (`di.Values`), a controller activator, and a
route emitter.  The `Application` methods (`New`, `Configure`,
`AddDependencies`, `Register`, `NewChild`) are embedded from the source file.
The dependency store and the activation engine live in packages that are not
part of this repository snapshot (`hero/di`, the controller activator), so
those parts are modelled from the specification, as marked on each definition.
-/

namespace Mvc

/-- Type descriptor for dependency values, controller fields and method
parameters.  `tCtx` is the request-context capability type; `tString`,
`tInt`, `tBool` are the primitive types eligible for path-parameter binding. -/
inductive Ty where
  | tCtx
  | tString
  | tInt
  | tBool
  | tUser
  | tOther (n : Nat)
deriving DecidableEq, Repr

/-- Runtime value: a type tag together with a payload. -/
structure Val where
  ty : Ty
  payload : Nat
deriving DecidableEq, Repr

/-- Zero value of a type: payload 0 ("the destination type's zero value"). -/
def zeroVal (t : Ty) : Val :=
  ⟨t, 0⟩

/-- Whether a type is primitive (string, numeric, boolean), the types for
which path-parameter binding takes precedence over a Dynamic dependency. -/
def isPrimitive : Ty → Bool
  | Ty.tString => true
  | Ty.tInt => true
  | Ty.tBool => true
  | _ => false

/-- Request context capability: positional path-parameter values plus an
authentication flag (used to model providers that fail for anonymous
requests). -/
structure Ctx where
  pathParams : List Val
  authed : Bool

/-- Raw value passed to `AddDependencies`: either a struct-like value or a
function value with an explicit input/output signature whose body yields an
optional value (`none` is the sentinel "no value produced" result). -/
inductive RawValue where
  | structVal (v : Val)
  | funcVal (inTys : List Ty) (outTys : List Ty) (f : Ctx → Option Val)

/-- Dependency entry.  Modelled from the spec: a Dependency Entry is a type
descriptor together with either one Static value or a Dynamic provider
function from the request context to a produced value. -/
inductive Entry where
  | static (v : Val)
  | dynamic (t : Ty) (f : Ctx → Option Val)

/-- Type descriptor of a dependency entry. -/
def entryTy : Entry → Ty
  | Entry.static v => v.ty
  | Entry.dynamic t _ => t

/-- Modelled from the spec: classification performed by `di.Values.Add`
(not in src).  A struct-like value becomes a Static entry; a function with a
single request-context input and a single output becomes a Dynamic entry
whose output type is the descriptor key; any other (malformed) value is
rejected, yielding `none`. -/
def entryOfRaw : RawValue → Option Entry
  | RawValue.structVal v => some (Entry.static v)
  | RawValue.funcVal [Ty.tCtx] [o] f => some (Entry.dynamic o f)
  | RawValue.funcVal _ _ _ => none

/-- Whether a raw value is well formed, i.e. accepted by `Add`. -/
def wellFormedRaw (r : RawValue) : Bool :=
  (entryOfRaw r).isSome

/-- Modelled from the spec: the Dependency Store `di.Values` (not in src), an
ordered sequence of dependency entries. -/
structure Values where
  entries : List Entry

/-- Modelled from the spec: `di.NewValues` (not in src) creates an empty
store. -/
def Values.emptyStore : Values :=
  ⟨[]⟩

/-- Modelled from the spec: `di.Values.Add` (not in src) appends one entry
per accepted value, in order; malformed values are rejected at Add time. -/
def Values.add (s : Values) (vs : List RawValue) : Values :=
  ⟨s.entries ++ vs.filterMap entryOfRaw⟩

/-- Modelled from the spec: `Lookup` (not in src) returns the most recently
added entry whose descriptor matches the requested type exactly, else the
most recent entry whose produced type satisfies the requested
capability/interface (the relation `impl`), else `none`. -/
def Values.lookup (s : Values) (impl : Ty → Ty → Bool) (t : Ty) : Option Entry :=
  match s.entries.reverse.find? (fun e => entryTy e == t) with
  | some e => some e
  | none => s.entries.reverse.find? (fun e => impl (entryTy e) t)

/-- Modelled from the spec: `Clone` (not in src) returns a new store holding
a copy of the entry sequence. -/
def Values.clone (s : Values) : Values :=
  ⟨s.entries⟩

/-- Error used by the specification's description of `Add` for malformed
dependency values. -/
inductive DepErr where
  | malformed
deriving DecidableEq, Repr

/-- Stated from the specification's words, for comparison with the code:
"malformed dependency value passed to AddDependencies is rejected at Add
time, surfaced to the caller as an explicit error result".  This is the
error-returning variant of `Values.add` that those words describe. -/
def Values.addSpecWords (s : Values) : List RawValue → Except DepErr Values
  | [] => Except.ok s
  | r :: rs =>
    match entryOfRaw r with
    | some e => Values.addSpecWords ⟨s.entries ++ [e]⟩ rs
    | none => Except.error DepErr.malformed

/-! ### Signature resolver and controller activator

The controller activator and the signature resolver live outside this
repository snapshot; they are modelled from the specification. -/

/-- HTTP verb recognised from a handler method's name. -/
inductive Verb where
  | get
  | post
  | put
  | deleteVerb
  | patch
  | optionsVerb
  | headVerb
deriving DecidableEq, Repr

/-- Whether the first character list is an initial segment of the second. -/
def charsStem : List Char → List Char → Bool
  | [], _ => true
  | _ :: _, [] => false
  | c :: cs, d :: ds => c == d && charsStem cs ds

/-- Whether `stem` is an initial segment of the name `n`. -/
def strStem (stem n : String) : Bool :=
  charsStem stem.toList n.toList

/-- Modelled from the spec: discovery maps an exported method name to an
HTTP verb when the name carries one of the fixed verb name-stems ("Get" maps
to GET, "Post" to POST, etc.); other methods are not handler candidates. -/
def verbOfName (n : String) : Option Verb :=
  if strStem "Get" n then some Verb.get
  else if strStem "Post" n then some Verb.post
  else if strStem "Put" n then some Verb.put
  else if strStem "Delete" n then some Verb.deleteVerb
  else if strStem "Patch" n then some Verb.patch
  else if strStem "Options" n then some Verb.optionsVerb
  else if strStem "Head" n then some Verb.headVerb
  else none

/-- Method of a controller: its name, the path parameters its route pattern
declares (as an ordered list of their types), and its parameter types. -/
structure MethodDef where
  name : String
  pathParams : List Ty
  paramTys : List Ty

/-- Resolved source of one bound slot: a static dependency value, a dynamic
dependency provider, or the path parameter at position `k`. -/
inductive Source where
  | fromStatic (v : Val)
  | fromDynamic (t : Ty) (f : Ctx → Option Val)
  | fromPath (k : Nat)

/-- Source corresponding to a dependency entry. -/
def srcOfEntry : Entry → Source
  | Entry.static v => Source.fromStatic v
  | Entry.dynamic t f => Source.fromDynamic t f

/-- Modelled from the spec: the Signature Resolver (not in src).  Walks a
method's parameter types in order, keeping the index `k` of the next
unconsumed declared path parameter.  A primitive parameter matching the next
declared path parameter binds to that path parameter — path-parameter
binding takes precedence over a dependency for primitive types.  Otherwise
the dependency store is consulted; an unresolved slot makes the whole method
unresolvable (`none`), so that method is skipped. -/
def resolveParams (impl : Ty → Ty → Bool) (store : Values) (pattern : List Ty) :
    List Ty → Nat → Option (List Source)
  | [], _ => some []
  | t :: ts, k =>
    if isPrimitive t = true ∧ pattern[k]? = some t then
      (resolveParams impl store pattern ts (k + 1)).map
        (fun srcs => Source.fromPath k :: srcs)
    else
      match store.lookup impl t with
      | some e =>
        (resolveParams impl store pattern ts k).map
          (fun srcs => srcOfEntry e :: srcs)
      | none => none

/-- Route handed to the router: verb, path pattern, handler method name and
the resolved argument sources. -/
structure Route where
  verb : Verb
  pattern : List Ty
  handlerName : String
  srcs : List Source

/-- Effect of a controller's `BeforeActivation` hook, when implemented: the
explicit method-to-route mappings it adds (each with its explicit HTTP verb)
and the auto-discovered method names it removes. -/
structure HookEffect where
  addMethods : List (Verb × MethodDef)
  removeNames : List String

/-- Controller passed to `Register`: its exported methods, the effect of its
`BeforeActivation` hook when it implements one, and whether it implements
`AfterActivation`. -/
structure ControllerDef where
  methods : List MethodDef
  hookBefore : Option HookEffect
  hasAfter : Bool

/-- Names removed by the controller's `BeforeActivation` hook (empty when the
hook is absent). -/
def ControllerDef.removedNames (c : ControllerDef) : List String :=
  match c.hookBefore with
  | some h => h.removeNames
  | none => []

/-- Explicit method-to-route mappings added by the controller's
`BeforeActivation` hook (empty when the hook is absent). -/
def ControllerDef.addedMethods (c : ControllerDef) : List (Verb × MethodDef) :=
  match c.hookBefore with
  | some h => h.addMethods
  | none => []

/-- Resolve one candidate method into a route, given its verb; `none` when
some parameter slot cannot be resolved (the method is skipped). -/
def routeOfMethod (impl : Ty → Ty → Bool) (store : Values) (v : Verb)
    (md : MethodDef) : Option Route :=
  (resolveParams impl store md.pathParams md.paramTys 0).map
    (fun srcs => ⟨v, md.pathParams, md.name, srcs⟩)

/-- Modelled from the spec: `activate` (not in src; per the source comment it
"parses the controller's methods").  Discovers the handler-candidate methods
(verb-named, not removed by the hook), prepends the hook-registered explicit
mappings, runs the signature resolver on each, and emits one route per fully
resolved method; a method that cannot be fully bound is skipped, not fatal. -/
def activateRoutes (impl : Ty → Ty → Bool) (store : Values) (c : ControllerDef) :
    List Route :=
  let discovered := (c.methods.filter
    (fun md => (verbOfName md.name).isSome && !(c.removedNames.contains md.name))).filterMap
    (fun md => (verbOfName md.name).map (fun v => (v, md)))
  let all := c.addedMethods ++ discovered
  all.filterMap (fun p => routeOfMethod impl store p.1 p.2)

/-! ### The Application facade (embedded from `src/mvc/mvc.go`)

Go's `*Application` is a pointer to a mutable struct, so the embedding uses
an explicit heap: a list of `Application` cells addressed by `AppRef`.  Each
method takes the heap and the receiver reference and returns the updated
heap together with the returned reference, mirroring `return app`. -/

/-- Reference to an `Application` cell in the heap. -/
abbrev AppRef := Nat

/-- Router party handed to `New`/`NewChild`: an identifier plus the routes
registered on it (route registration is the capability this core consumes). -/
structure Party where
  id : Nat
  routes : List Route

/-- The `Application` struct from `src/mvc/mvc.go` lines 19-22: the
dependencies holder and the router party. -/
structure Application where
  Dependencies : Values
  Router : Party

instance : Inhabited Application :=
  ⟨⟨Values.emptyStore, ⟨0, []⟩⟩⟩

/-- Heap of `Application` cells; a fresh cell is appended on allocation. -/
structure Mem where
  cells : List Application

/-- Dereference an application pointer. -/
def Mem.get (m : Mem) (r : AppRef) : Application :=
  m.cells.getD r default

/-- Update the cell an application pointer refers to. -/
def Mem.set (m : Mem) (r : AppRef) (a : Application) : Mem :=
  ⟨m.cells.set r a⟩

/-- The `newApp` constructor (src lines 24-29): allocates an Application
with the given router and dependency values. -/
def newApp (m : Mem) (subRouter : Party) (values : Values) : Mem × AppRef :=
  (⟨m.cells ++ [⟨values, subRouter⟩]⟩, m.cells.length)

/-- The `New` constructor (src lines 36-38): `newApp(party, di.NewValues())`. -/
def New (m : Mem) (party : Party) : Mem × AppRef :=
  newApp m party Values.emptyStore

/-- A configurator `func(*Application)` mutates the application it is handed;
embedded as a function on the cell contents. -/
abbrev Configurator := Application → Application

/-- The method `Application.Configure` (src lines 64-69): runs each
configurator on the receiver in order and returns the receiver. -/
def Application.Configure (m : Mem) (r : AppRef) : List Configurator → Mem × AppRef
  | [] => (m, r)
  | c :: cs => Application.Configure (m.set r (c (m.get r))) r cs

/-- The package-level `Configure` (src lines 47-58):
`New(party).Configure(configurators...)`. -/
def Configure (m : Mem) (party : Party) (configurators : List Configurator) :
    Mem × AppRef :=
  let p := New m party
  Application.Configure p.1 p.2 configurators

/-- The method `Application.AddDependencies` (src lines 85-88):
`app.Dependencies.Add(values...)` then `return app`. -/
def Application.AddDependencies (m : Mem) (r : AppRef) (values : List RawValue) :
    Mem × AppRef :=
  (m.set r ⟨(m.get r).Dependencies.add values, (m.get r).Router⟩, r)

/-- The method `Application.Register` (src lines 134-155): activates the
controller against the receiver's dependencies, registers the emitted routes
on the receiver's router, and returns the receiver.  The activation internals
are `activateRoutes` (modelled from the spec). -/
def Application.Register (impl : Ty → Ty → Bool) (m : Mem) (r : AppRef)
    (c : ControllerDef) : Mem × AppRef :=
  let app := m.get r
  let emitted := activateRoutes impl app.Dependencies c
  (m.set r ⟨app.Dependencies, ⟨app.Router.id, app.Router.routes ++ emitted⟩⟩, r)

/-- The method `Application.NewChild` (src lines 163-165):
`newApp(party, app.Dependencies.Clone())`. -/
def Application.NewChild (m : Mem) (r : AppRef) (party : Party) : Mem × AppRef :=
  newApp m party ((m.get r).Dependencies.clone)

/-! ### Order of steps inside `Register` -/

/-- Step performed during `Application.Register`. -/
inductive Event where
  | newActivator
  | beforeHook
  | discoverMethods
  | bindMethods
  | emitRoutes
  | afterHook
deriving DecidableEq, Repr

/-- Sequence of steps `Application.Register` performs (src lines 134-155):
build the activator, invoke `BeforeActivation` when the controller
implements it, then `c.activate()` — which per the source comment "simply
parses the controller's methods", i.e. discovery, binding and route
emission — then invoke `AfterActivation` when implemented. -/
def registerEvents (c : ControllerDef) : List Event :=
  [Event.newActivator]
    ++ (if c.hookBefore.isSome then [Event.beforeHook] else [])
    ++ [Event.discoverMethods, Event.bindMethods, Event.emitRoutes]
    ++ (if c.hasAfter then [Event.afterHook] else [])

/-! ### Request-time behaviour of an emitted route

Modelled from the spec: the Route Emitter's closure builds one fresh
controller instance per request, materialises Dynamic field bindings from
the live context (a provider's "no value" sentinel leaves the zero value),
resolves the method arguments, invokes the method, and translates its
return shape into a response. -/

/-- Binding of one controller field: a static value or a dynamic provider. -/
inductive FieldSrc where
  | staticVal (v : Val)
  | dynamicVal (t : Ty) (f : Ctx → Option Val)

/-- Materialise one bound field on a fresh instance: a Dynamic provider that
yields no value leaves the destination type's zero value. -/
def materializeField (ctx : Ctx) : FieldSrc → Val
  | FieldSrc.staticVal v => v
  | FieldSrc.dynamicVal t f => (f ctx).getD (zeroVal t)

/-- Materialise one method argument from its resolved source. -/
def materializeArg (ctx : Ctx) : Source → Val
  | Source.fromStatic v => v
  | Source.fromDynamic t f => (f ctx).getD (zeroVal t)
  | Source.fromPath k => ctx.pathParams.getD k (zeroVal Ty.tString)

/-- Return shape of a handler method: a plain value or an error-shaped
result. -/
inductive HandlerRet where
  | value (v : Val)
  | failure (code : Nat)

/-- HTTP-level outcome of serving one request. -/
inductive Resp where
  | success (v : Val)
  | errorResp (code : Nat)
deriving DecidableEq, Repr

/-- Data the emitted closure carries: the field-injection plan, the resolved
argument sources, and the handler method (taking the instance's field values
and the argument values). -/
structure RouteData where
  fieldBinds : List FieldSrc
  argBinds : List Source
  handler : List Val → List Val → HandlerRet

/-- Fresh controller instance built for one request: the field values
materialised from the live context. -/
def mkInstance (rd : RouteData) (ctx : Ctx) : List Val :=
  rd.fieldBinds.map (materializeField ctx)

/-- Argument values for one request. -/
def mkArgs (rd : RouteData) (ctx : Ctx) : List Val :=
  rd.argBinds.map (materializeArg ctx)

/-- Translate the handler's return shape into a response. -/
def respOfRet : HandlerRet → Resp
  | HandlerRet.value v => Resp.success v
  | HandlerRet.failure c => Resp.errorResp c

/-- Serve one request: build the fresh instance, materialise the arguments,
invoke the handler, translate its result. -/
def serve (rd : RouteData) (ctx : Ctx) : Resp :=
  respOfRet (rd.handler (mkInstance rd ctx) (mkArgs rd ctx))

/-! ### Helper lemmas -/

/-- Dereferencing a cell other than the updated one is unchanged. -/
theorem Mem.get_set_ne (m : Mem) (r r' : AppRef) (a : Application) (h : r ≠ r') :
    (m.set r a).get r' = m.get r' := by
  simp [Mem.get, Mem.set, List.getD_eq_getElem?_getD, List.getElem?_set_ne h]

/-- Dereferencing the updated cell yields the written value (valid pointer). -/
theorem Mem.get_set_self (m : Mem) (r : AppRef) (a : Application)
    (h : r < m.cells.length) : (m.set r a).get r = a := by
  simp [Mem.get, Mem.set, List.getD_eq_getElem?_getD, List.getElem?_set_self h]

/-- Allocating a fresh cell does not change existing cells. -/
theorem Mem.get_alloc (m : Mem) (x : Application) (r : AppRef)
    (h : r < m.cells.length) : (Mem.mk (m.cells ++ [x])).get r = m.get r := by
  simp [Mem.get, List.getD_eq_getElem?_getD, List.getElem?_append_left h]

/-- A store ending in entry `e` looks up `e`'s own type descriptor to `e`:
the exact-match pass is last-match-wins. -/
theorem Values.lookup_concat (es : List Entry) (e : Entry) (impl : Ty → Ty → Bool) :
    (Values.mk (es ++ [e])).lookup impl (entryTy e) = some e := by
  simp [Values.lookup]

/-! ### Claims -/

/-- C1: Dependency shadowing (last-match-wins): for every dependency store
and any two values A and B with the same type descriptor, performing Add(A)
then Add(B) makes a subsequent Lookup for that type return B, while both
entries remain in the store's entry sequence. -/
theorem C1_shadowing (s : Values) (A B : RawValue) (ea eb : Entry)
    (impl : Ty → Ty → Bool)
    (hA : entryOfRaw A = some ea) (hB : entryOfRaw B = some eb)
    (hty : entryTy ea = entryTy eb) :
    ((s.add [A]).add [B]).lookup impl (entryTy ea) = some eb ∧
      ((s.add [A]).add [B]).entries = s.entries ++ [ea, eb] := by
  have h2 : ((s.add [A]).add [B]).entries = (s.entries ++ [ea]) ++ [eb] := by
    simp [Values.add, hA, hB]
  refine ⟨?_, ?_⟩
  · rw [hty]
    have := Values.lookup_concat (s.entries ++ [ea]) eb impl
    calc ((s.add [A]).add [B]).lookup impl (entryTy eb)
        = (Values.mk ((s.entries ++ [ea]) ++ [eb])).lookup impl (entryTy eb) := by
          rw [show (s.add [A]).add [B] = Values.mk ((s.entries ++ [ea]) ++ [eb]) from
            congrArg Values.mk h2]
      _ = some eb := this
  · rw [h2, List.append_assoc]
    rfl

/-- Witness for C1 at a concrete input: two string-typed static values. -/
theorem C1_shadowing_witness :
    ((Values.emptyStore.add [RawValue.structVal ⟨Ty.tString, 1⟩]).add
        [RawValue.structVal ⟨Ty.tString, 2⟩]).lookup (fun _ _ => false)
        (entryTy (Entry.static ⟨Ty.tString, 1⟩)) =
        some (Entry.static ⟨Ty.tString, 2⟩) ∧
      ((Values.emptyStore.add [RawValue.structVal ⟨Ty.tString, 1⟩]).add
        [RawValue.structVal ⟨Ty.tString, 2⟩]).entries =
        Values.emptyStore.entries ++
          [Entry.static ⟨Ty.tString, 1⟩, Entry.static ⟨Ty.tString, 2⟩] :=
  C1_shadowing Values.emptyStore (RawValue.structVal ⟨Ty.tString, 1⟩)
    (RawValue.structVal ⟨Ty.tString, 2⟩) (Entry.static ⟨Ty.tString, 1⟩)
    (Entry.static ⟨Ty.tString, 2⟩) (fun _ _ => false) rfl rfl rfl

/-- C2: Clone isolation: the child created by `NewChild` holds an independent
clone of the parent's dependency store, so `AddDependencies` on the child is
never visible via lookup on the parent's store, and `AddDependencies` on the
parent is never visible via lookup on the child's store. -/
theorem C2_clone_isolation (m : Mem) (r : AppRef) (p : Party)
    (vs vsP : List RawValue) (impl : Ty → Ty → Bool) (t : Ty)
    (hr : r < m.cells.length) :
    (((Application.AddDependencies (Application.NewChild m r p).1
          (Application.NewChild m r p).2 vs).1.get r).Dependencies.lookup impl t =
        ((m.get r).Dependencies.lookup impl t)) ∧
      (((Application.AddDependencies (Application.NewChild m r p).1 r vsP).1.get
          (Application.NewChild m r p).2).Dependencies.lookup impl t =
        (((Application.NewChild m r p).1.get
          (Application.NewChild m r p).2).Dependencies.lookup impl t)) := by
  have hne : m.cells.length ≠ r := (Nat.ne_of_lt hr).symm
  refine ⟨?_, ?_⟩
  · have hget : (Application.AddDependencies (Application.NewChild m r p).1
        (Application.NewChild m r p).2 vs).1.get r = m.get r := by
      simp only [Application.AddDependencies, Application.NewChild, newApp]
      rw [Mem.get_set_ne _ _ _ _ hne]
      exact Mem.get_alloc m _ r hr
    rw [hget]
  · have hget : (Application.AddDependencies (Application.NewChild m r p).1 r vsP).1.get
        (Application.NewChild m r p).2 =
        (Application.NewChild m r p).1.get (Application.NewChild m r p).2 := by
      simp only [Application.AddDependencies, Application.NewChild, newApp]
      exact Mem.get_set_ne _ _ _ _ (Ne.symm hne)
    rw [hget]

/-- Witness for C2 at a concrete input: a one-cell heap, a child on party 1,
a string dependency added to the child and an int dependency to the parent. -/
theorem C2_clone_isolation_witness :
    (((Application.AddDependencies
          (Application.NewChild ⟨[⟨Values.emptyStore, ⟨0, []⟩⟩]⟩ 0 ⟨1, []⟩).1
          (Application.NewChild ⟨[⟨Values.emptyStore, ⟨0, []⟩⟩]⟩ 0 ⟨1, []⟩).2
          [RawValue.structVal ⟨Ty.tString, 5⟩]).1.get 0).Dependencies.lookup
          (fun _ _ => false) Ty.tString =
        (((⟨[⟨Values.emptyStore, ⟨0, []⟩⟩]⟩ : Mem).get 0).Dependencies.lookup
          (fun _ _ => false) Ty.tString)) ∧
      (((Application.AddDependencies
          (Application.NewChild ⟨[⟨Values.emptyStore, ⟨0, []⟩⟩]⟩ 0 ⟨1, []⟩).1 0
          [RawValue.structVal ⟨Ty.tInt, 3⟩]).1.get
          (Application.NewChild ⟨[⟨Values.emptyStore, ⟨0, []⟩⟩]⟩ 0 ⟨1, []⟩).2).Dependencies.lookup
          (fun _ _ => false) Ty.tString =
        (((Application.NewChild ⟨[⟨Values.emptyStore, ⟨0, []⟩⟩]⟩ 0 ⟨1, []⟩).1.get
          (Application.NewChild ⟨[⟨Values.emptyStore, ⟨0, []⟩⟩]⟩ 0 ⟨1, []⟩).2).Dependencies.lookup
          (fun _ _ => false) Ty.tString)) :=
  C2_clone_isolation ⟨[⟨Values.emptyStore, ⟨0, []⟩⟩]⟩ 0 ⟨1, []⟩
    [RawValue.structVal ⟨Ty.tString, 5⟩] [RawValue.structVal ⟨Ty.tInt, 3⟩]
    (fun _ _ => false) Ty.tString (by decide)

/-- C9: Constructor equivalence: the package-level `Configure(p, fns...)`
produces exactly the application produced by `New(p).Configure(fns...)`. -/
theorem C9_constructor_equivalence (m : Mem) (p : Party) (fns : List Configurator) :
    Configure m p fns = Application.Configure (New m p).1 (New m p).2 fns :=
  rfl

/-- Running the configurator loop equals a left fold over the configurators,
returning the receiver unchanged. -/
theorem configure_eq_foldl (fns : List Configurator) (m : Mem) (r : AppRef) :
    Application.Configure m r fns =
      (fns.foldl (fun mm f => mm.set r (f (mm.get r))) m, r) := by
  induction fns generalizing m with
  | nil => rfl
  | cons f fs ih => simpa [Application.Configure] using ih (m.set r (f (m.get r)))

/-- C10: Fluent identity: `AddDependencies`, `Register` and `Configure` each
return the very same application reference they were invoked on, and
`Configure` applies its configurators to that same cell left to right. -/
theorem C10_fluent_identity (m : Mem) (r : AppRef) (values : List RawValue)
    (impl : Ty → Ty → Bool) (c : ControllerDef) (fns : List Configurator) :
    (Application.AddDependencies m r values).2 = r ∧
      (Application.Register impl m r c).2 = r ∧
      (Application.Configure m r fns).2 = r ∧
      (Application.Configure m r fns).1 =
        fns.foldl (fun mm f => mm.set r (f (mm.get r))) m := by
  refine ⟨rfl, rfl, ?_, ?_⟩
  · rw [configure_eq_foldl]
  · rw [configure_eq_foldl]

/-- C3: Partial-binding tolerance: a controller with one handler method whose
parameter type matches no dependency and one fully bindable handler method
registers exactly one route — the bindable one; the unresolved method is
skipped without aborting the rest. -/
theorem C3_partial_binding (impl : Ty → Ty → Bool) (store : Values)
    (m1 m2 : MethodDef) (v1 v2 : Verb) (srcs : List Source) (tBad : Ty)
    (h1v : verbOfName m1.name = some v1)
    (h1p : m1.pathParams = []) (h1t : m1.paramTys = [tBad])
    (h1look : store.lookup impl tBad = none)
    (h2v : verbOfName m2.name = some v2)
    (h2ok : resolveParams impl store m2.pathParams m2.paramTys 0 = some srcs) :
    activateRoutes impl store ⟨[m1, m2], none, false⟩ =
      [⟨v2, m2.pathParams, m2.name, srcs⟩] := by
  simp [activateRoutes, ControllerDef.removedNames, ControllerDef.addedMethods,
    routeOfMethod, h1v, h2v, h2ok, h1p, h1t, resolveParams, h1look]

/-- Witness for C3: a controller whose `Get` method needs an unavailable
`tUser` dependency and whose `Post` method takes no parameters, against an
empty store: exactly the `Post` route is registered. -/
theorem C3_partial_binding_witness :
    activateRoutes (fun _ _ => false) Values.emptyStore
        ⟨[⟨"Get", [], [Ty.tUser]⟩, ⟨"Post", [], []⟩], none, false⟩ =
      [⟨Verb.post, [], "Post", []⟩] :=
  C3_partial_binding (fun _ _ => false) Values.emptyStore
    ⟨"Get", [], [Ty.tUser]⟩ ⟨"Post", [], []⟩ Verb.get Verb.post [] Ty.tUser
    (by decide) rfl rfl rfl (by decide) rfl

/-- C4 counterexample: for a controller implementing both hooks, in the
`Register` step sequence method discovery does not precede the
`BeforeActivation` hook — discovery happens inside `activate`, which the
source calls after the hook — refuting the claim's discovery-first part. -/
theorem C4_counterexample :
    ¬ ((registerEvents ⟨[], some ⟨[], []⟩, true⟩).indexOf Event.discoverMethods <
        (registerEvents ⟨[], some ⟨[], []⟩, true⟩).indexOf Event.beforeHook) := by
  decide

/-- C4 (amended): for every controller implementing both hooks, `Register`
invokes `BeforeActivation` before the activation step (which performs
discovery, binding and route emission) and `AfterActivation` after it;
discovery happens inside activation, after the `BeforeActivation` hook. -/
theorem C4_activation_order (c : ControllerDef)
    (hb : c.hookBefore.isSome = true) (ha : c.hasAfter = true) :
    registerEvents c =
      [Event.newActivator, Event.beforeHook, Event.discoverMethods,
        Event.bindMethods, Event.emitRoutes, Event.afterHook] := by
  simp [registerEvents, hb, ha]

/-- Witness for C4 (amended) at a concrete controller with both hooks. -/
theorem C4_activation_order_witness :
    registerEvents ⟨[⟨"Get", [], []⟩], some ⟨[], []⟩, true⟩ =
      [Event.newActivator, Event.beforeHook, Event.discoverMethods,
        Event.bindMethods, Event.emitRoutes, Event.afterHook] :=
  C4_activation_order ⟨[⟨"Get", [], []⟩], some ⟨[], []⟩, true⟩ rfl rfl

/-- C5 counterexample: a zero-input function value is malformed, yet the
code's `AddDependencies` returns the very same application (same reference,
dependency store unchanged) with no error channel, while the spec's words
("surfaced to the caller as an explicit error result") demand an error for
this input. -/
theorem C5_counterexample :
    ((Application.AddDependencies ⟨[⟨Values.emptyStore, ⟨0, []⟩⟩]⟩ 0
        [RawValue.funcVal [] [Ty.tString] (fun _ => none)]).1.get 0 =
      (⟨[⟨Values.emptyStore, ⟨0, []⟩⟩]⟩ : Mem).get 0) ∧
      ((Application.AddDependencies ⟨[⟨Values.emptyStore, ⟨0, []⟩⟩]⟩ 0
        [RawValue.funcVal [] [Ty.tString] (fun _ => none)]).2 = 0) ∧
      (Values.emptyStore.addSpecWords
        [RawValue.funcVal [] [Ty.tString] (fun _ => none)] =
        Except.error DepErr.malformed) :=
  ⟨rfl, rfl, rfl⟩

/-- C5 (amended): a malformed dependency value is rejected at Add time — it
never becomes an entry of the store — but the rejection is silent:
`AddDependencies` returns the receiver application and no error result. -/
theorem C5_malformed_silent (s : Values) (m : Mem) (r : AppRef) (v : RawValue)
    (h : wellFormedRaw v = false) :
    (s.add [v]).entries = s.entries ∧
      (Application.AddDependencies m r [v]).2 = r := by
  have hn : entryOfRaw v = none := by
    cases he : entryOfRaw v with
    | none => rfl
    | some e => rw [wellFormedRaw, he] at h; simp at h
  exact ⟨by simp [Values.add, hn], rfl⟩

/-- Witness for C5 (amended) at the concrete malformed zero-input function. -/
theorem C5_malformed_silent_witness :
    (Values.emptyStore.add [RawValue.funcVal [] [Ty.tString] (fun _ => none)]).entries =
        Values.emptyStore.entries ∧
      (Application.AddDependencies ⟨[⟨Values.emptyStore, ⟨0, []⟩⟩]⟩ 0
        [RawValue.funcVal [] [Ty.tString] (fun _ => none)]).2 = 0 :=
  C5_malformed_silent Values.emptyStore ⟨[⟨Values.emptyStore, ⟨0, []⟩⟩]⟩ 0
    (RawValue.funcVal [] [Ty.tString] (fun _ => none)) rfl

/-- C6: Path-parameter precedence: a primitive-typed handler parameter whose
route pattern declares a matching path parameter binds to the path
parameter, not to a dependency — even when a Dynamic dependency producing
the same type exists in the store. -/
theorem C6_path_param_precedence (impl : Ty → Ty → Bool) (store : Values)
    (pattern ts : List Ty) (k : Nat) (t : Ty) (f : Ctx → Option Val)
    (hp : isPrimitive t = true) (hpat : pattern[k]? = some t)
    (_hdyn : Entry.dynamic t f ∈ store.entries) :
    resolveParams impl store pattern (t :: ts) k =
      (resolveParams impl store pattern ts (k + 1)).map
        (fun srcs => Source.fromPath k :: srcs) := by
  simp [resolveParams, hp, hpat]

/-- Witness for C6: a string parameter, a pattern declaring one string path
parameter, and a store holding a Dynamic string provider. -/
theorem C6_path_param_precedence_witness :
    resolveParams (fun _ _ => false) ⟨[Entry.dynamic Ty.tString (fun _ => none)]⟩
        [Ty.tString] [Ty.tString] 0 =
      (resolveParams (fun _ _ => false) ⟨[Entry.dynamic Ty.tString (fun _ => none)]⟩
        [Ty.tString] [] 1).map (fun srcs => Source.fromPath 0 :: srcs) :=
  C6_path_param_precedence (fun _ _ => false)
    ⟨[Entry.dynamic Ty.tString (fun _ => none)]⟩ [Ty.tString] [] 0 Ty.tString
    (fun _ => none) rfl rfl (List.mem_singleton.mpr rfl)

/-- Route data for a controller with one Dynamic `tUser` field and one
Dynamic `tString` method parameter whose providers yield no value, used by
the C7 witness. -/
def rdMissing : RouteData :=
  ⟨[FieldSrc.dynamicVal Ty.tUser (fun _ => none)],
    [Source.fromDynamic Ty.tString (fun _ => none)],
    fun _ _ => HandlerRet.value ⟨Ty.tString, 7⟩⟩

/-- An anonymous request context, used by the C7 witness. -/
def ctxAnon : Ctx :=
  ⟨[], false⟩

/-- C7: Missing-dynamic-value tolerance: for every bound slot — a controller
field or a method parameter — whose Dynamic provider yields the "no value"
sentinel on this request, the materialised slot holds the destination type's
zero value; and the response is still the translation of the handler's own
return on those materialised values — the handler is invoked and the missing
value is not a request failure. -/
theorem C7_missing_dynamic_tolerance (rd : RouteData) (ctx : Ctx) :
    (∀ (i : Nat) (t : Ty) (f : Ctx → Option Val),
      rd.fieldBinds[i]? = some (FieldSrc.dynamicVal t f) → f ctx = none →
      (mkInstance rd ctx)[i]? = some (zeroVal t)) ∧
      (∀ (j : Nat) (u : Ty) (g : Ctx → Option Val),
        rd.argBinds[j]? = some (Source.fromDynamic u g) → g ctx = none →
        (mkArgs rd ctx)[j]? = some (zeroVal u)) ∧
      serve rd ctx = respOfRet (rd.handler (mkInstance rd ctx) (mkArgs rd ctx)) := by
  refine ⟨?_, ?_, rfl⟩
  · intro i t f hf hnone
    rw [mkInstance, List.getElem?_map, hf]
    simp [materializeField, hnone]
  · intro j u g hg hnone
    rw [mkArgs, List.getElem?_map, hg]
    simp [materializeArg, hnone]

/-- Witness for C7: both providers fail on the anonymous context, the field
slot gets `tUser`'s zero value, the parameter slot gets `tString`'s zero
value, and the handler still runs. -/
theorem C7_missing_dynamic_tolerance_witness :
    (mkInstance rdMissing ctxAnon)[0]? = some (zeroVal Ty.tUser) ∧
      (mkArgs rdMissing ctxAnon)[0]? = some (zeroVal Ty.tString) ∧
      serve rdMissing ctxAnon =
        respOfRet (rdMissing.handler (mkInstance rdMissing ctxAnon)
          (mkArgs rdMissing ctxAnon)) :=
  ⟨(C7_missing_dynamic_tolerance rdMissing ctxAnon).1 0 Ty.tUser
      (fun _ => none) rfl rfl,
    (C7_missing_dynamic_tolerance rdMissing ctxAnon).2.1 0 Ty.tString
      (fun _ => none) rfl rfl,
    (C7_missing_dynamic_tolerance rdMissing ctxAnon).2.2⟩

end Mvc
